import Mathlib

/-!
Verification of the session / compaction-planning core of goleveldb
(file leveldb/session.go): a shallow embedding of the session state,
manifest commit/recover, and the compaction planner, with theorems
checking the natural-language specification against the code.

Key model: internal keys (iKey) are totally ordered by the installed
comparer; the embedding represents keys as natural numbers with their
linear order, and the user-key projection (ukey) is the identity, since
every property checked here only uses comparisons.
-/

namespace GoLevelDB

/-- Modelled from the spec: the fixed number of levels (config constant
kNumLevels, defined outside this file); goleveldb uses 7. -/
def kNumLevels : Nat := 7

/-- Modelled from the spec: the fixed byte ceiling on grandparent overlap
(config constant kMaxGrandParentOverlapBytes = 10 * 2MiB, defined outside
this file). -/
def kMaxGrandParentOverlapBytes : Nat := 10 * 2097152

/-- Modelled from the spec: the fixed byte ceiling on an expanded
compaction (config constant kExpCompactionMaxBytes = 25 * 2MiB, defined
outside this file). -/
def kExpCompactionMaxBytes : Nat := 25 * 2097152

/-- File metadata (tFile in the source): file number, key range covered
and byte size. -/
structure tFile where
  fnum : Nat
  min : Nat
  max : Nat
  size : Nat
deriving DecidableEq

/-- Total byte size of a set of files (tFiles.size, defined outside this
file as the sum of the file sizes). -/
def tFiles.size (tf : List tFile) : Nat :=
  tf.foldl (fun a t => a + t.size) 0

/-- Modelled from the spec: the full key range covered by a set of files
(tFiles.getRange, defined outside this file). Returns (0, 0) for the
empty set; callers in this file only use it on non-empty sets. -/
def tFiles.getRange (tf : List tFile) : Nat × Nat :=
  match tf with
  | [] => (0, 0)
  | t :: ts => ts.foldl (fun r u => (Nat.min r.1 u.min, Nat.max r.2 u.max)) (t.min, t.max)

/-- Modelled from the spec: tFiles.getOverlaps (defined outside this
file) gathers all files at the level whose key range overlaps [mn, mx].
The disjSorted flag marks levels whose files are disjoint and sorted
(levels at depth 1 and deeper); the spec describes the result in both
cases as the set of files overlapping the range. -/
def tFiles.getOverlaps (tf : List tFile) (mn mx : Nat) (disjSorted : Bool) : List tFile :=
  tf.filter (fun t => decide (mn ≤ t.max) && decide (t.min ≤ mx))

/-- The single-slot seek-compaction hint (tSet in the source). -/
structure tSet where
  level : Nat
  table : tFile
deriving DecidableEq

/-- An immutable version snapshot: per-level file lists plus the derived
compaction score, its candidate level, and the optional seek hint. -/
structure version where
  tables : List (List tFile)
  cScore : ℚ
  cLevel : Nat
  cSeek : Option tSet
deriving DecidableEq

/-- A manifest session record (sessionRecord in the source): scalar
fields with has-flags mirroring the record's field-presence bitmask,
plus the repeated compaction-pointer / added-table / deleted-table
entries. -/
structure sessionRecord where
  hasComparer : Bool := false
  comparer : String := ""
  hasNextNum : Bool := false
  nextNum : Nat := 0
  hasJournalNum : Bool := false
  journalNum : Nat := 0
  hasSeq : Bool := false
  seq : Nat := 0
  compactionPointers : List (Nat × Nat) := []
  addedTables : List (Nat × tFile) := []
  deletedTables : List (Nat × Nat) := []
deriving DecidableEq

/-- Clears the repeated fields of a record, mirroring the source's
resetCompactionPointers / resetAddedTables / resetDeletedTables calls at
the end of each replay iteration. -/
def resetLists (rc : sessionRecord) : sessionRecord :=
  { rc with compactionPointers := [], addedTables := [], deletedTables := [] }

/-- Insert a file into a sorted level in key order (spec: additions at
levels of depth 1 and deeper are inserted in sorted position). -/
def insertSorted : List tFile → tFile → List tFile
  | [], t => [t]
  | u :: us, t => if t.min ≤ u.min then t :: u :: us else u :: insertSorted us t

/-- Modelled from the spec: staged application of one record into a
per-level table listing (versionStaging.commit, defined outside this
file): deletions are applied first, then additions, per level; level 0
appends, deeper levels insert in sorted position. Entries naming a level
outside the listing have no effect. -/
def tablesApply (tables : List (List tFile)) (rc : sessionRecord) : List (List tFile) :=
  tables.enum.map (fun p =>
    let lv := p.1
    let tt := p.2.filter (fun t => !(rc.deletedTables.any (fun d => d.1 == lv && d.2 == t.fnum)))
    let adds := (rc.addedTables.filter (fun a => a.1 == lv)).map Prod.snd
    if lv = 0 then tt ++ adds else adds.foldl insertSorted tt)

/-- Modelled from the spec: the size-based compaction score of one level
(computed outside this file): level 0 by file count against its trigger,
deeper levels by byte size against a per-level byte target. -/
def levelScore (level : Nat) (tt : List tFile) : ℚ :=
  if level = 0 then (tt.length : ℚ) / 4
  else (tFiles.size tt : ℚ) / (2097152 * (10 : ℚ) ^ level)

/-- Modelled from the spec: versionStaging.finish (defined outside this
file) builds the version for a staged table listing, recomputing the
per-level scores and recording the highest-scoring level; a fresh
version carries no seek hint. -/
def version.finish (tables : List (List tFile)) : version :=
  let best := (tables.enum.map (fun p => (p.1, levelScore p.1 p.2))).foldl
      (fun b c => if b.2 < c.2 then c else b) (0, (-1 : ℚ))
  { tables := tables, cScore := best.2, cLevel := best.1, cSeek := none }

/-- Modelled from the spec: version.spawn (defined outside this file)
builds the candidate version from a base version plus one record. -/
def version.spawn (v : version) (rc : sessionRecord) : version :=
  version.finish (tablesApply v.tables rc)

/-- Error values of the embedding: the plain not-exist result, the
manifest error wrapper (ErrManifest in the source) and other storage or
journal errors. -/
inductive DBError where
  | notExist : DBError
  | manifestErr : String → DBError
  | otherErr : String → DBError
deriving DecidableEq

/-- The session state (session in the source): counters, per-level
compaction pointers (none encodes the nil iKey), the current version,
whether the manifest journal writer exists, and the active comparer
name. -/
structure session where
  stFileNum : Nat
  stJournalNum : Nat
  stSeq : Nat
  stCPtrs : List (Option Nat)
  stVersion : version
  hasManifest : Bool
  cmpName : String
deriving DecidableEq

/-- Overwrites per-level compaction pointers with the entries of a
record, in order (the source writes s.stCPtrs at rp.level for each
entry); an entry naming a level outside the array has no effect. -/
def applyCPtrs (cptrs : List (Option Nat)) (ps : List (Nat × Nat)) : List (Option Nat) :=
  ps.foldl (fun cs p => cs.set p.1 (some p.2)) cptrs

/-- Modelled from the spec: newManifest (defined outside this file)
creates a fresh manifest journal seeded with the candidate version's
table listing; the durable outcome is the oracle argument appendErr. On
success the session owns an open manifest writer. -/
def session.newManifest (s : session) (rc : sessionRecord) (nv : version)
    (appendErr : Option DBError) : session × Option DBError :=
  match appendErr with
  | none => ({ s with hasManifest := true }, none)
  | some e => (s, some e)

/-- Modelled from the spec: flushManifest (defined outside this file)
appends the record to the open manifest journal; the durable outcome is
the oracle argument appendErr. -/
def session.flushManifest (s : session) (rc : sessionRecord)
    (appendErr : Option DBError) : session × Option DBError :=
  (s, appendErr)

/-- session.commit: spawn the candidate version from the current version
plus the record, durably append (creating the manifest on first use),
and publish the candidate as current only when the append succeeded. -/
def session.commit (s : session) (rc : sessionRecord)
    (appendErr : Option DBError) : session × Option DBError :=
  let nv := s.stVersion.spawn rc
  let p := if s.hasManifest then s.flushManifest rc appendErr
           else s.newManifest rc nv appendErr
  match p.2 with
  | none => ({ p.1 with stVersion := nv }, none)
  | some e => (p.1, some e)

/-- The initial-input selection of pickCompaction as an observable
value: the out-of-bounds access branch (indexing the first element of an
empty level), the nothing-to-do branch (nil in the source), or the
chosen (level, file set). -/
inductive PickInput where
  | oob : PickInput
  | nothing : PickInput
  | input : Nat → List tFile → PickInput
deriving DecidableEq

/-- Whether the compaction pointer allows a file with the given max key:
an unset pointer (nil iKey) allows every file, a set pointer only files
whose max key is strictly greater (the source's cp == nil test and
icmp.Compare of t.max against cp). -/
def cpBelow : Option Nat → Nat → Bool
  | none, _ => true
  | some k, m => decide (k < m)

/-- The file-picking loop of pickCompaction: scan the level in order and
take the first file passing the compaction-pointer test, as a singleton;
empty when no file passes. -/
def pickT0Loop (cp : Option Nat) : List tFile → List tFile
  | [] => []
  | t :: ts => if cpBelow cp t.max then [t] else pickT0Loop cp ts

/-- The initial (level, t0) selection of session.pickCompaction: the
score branch uses the compaction pointer with wrap-around to the first
file of the level (an out-of-bounds access when the level is empty);
otherwise the seek hint, when present, is used as the sole input; else
there is nothing to do. -/
def session.pickInput (s : session) : PickInput :=
  let v := s.stVersion
  if (1 : ℚ) ≤ v.cScore then
    match v.tables.get? v.cLevel with
    | none => PickInput.oob
    | some tt =>
      let cp := s.stCPtrs.getD v.cLevel none
      let t0 := pickT0Loop cp tt
      if t0.isEmpty then
        match tt.head? with
        | none => PickInput.oob
        | some t => PickInput.input v.cLevel [t]
      else PickInput.input v.cLevel t0
  else
    match v.cSeek with
    | some ts => PickInput.input ts.level [ts.table]
    | none => PickInput.nothing

/-- A compaction job (compaction in the source): the version it works
on, the level under compaction, the two input file sets tables[0] and
tables[1], the grandparent overlap set with its cursor, the seen-key
flag, the accumulated overlapped bytes, and the covering key range. -/
structure compaction where
  version : version
  level : Nat
  tables0 : List tFile
  tables1 : List tFile
  gp : List tFile
  gpidx : Nat
  seenKey : Bool
  overlappedBytes : Nat
  min : Nat
  max : Nat
deriving DecidableEq

/-- compaction.expand: gather the parent files overlapping the level-L
inputs, attempt a single growth of the level-L set to the combined
range when that pulls in strictly more L-files without changing the
parent file count and without crossing the expansion byte ceiling, and
finally compute the grandparent overlap set of the combined range. -/
def compaction.expand (c : compaction) : compaction :=
  let v := c.version
  let level := c.level
  let vt0 := v.tables.getD level []
  let vt1 := v.tables.getD (level + 1) []
  let t0 := c.tables0
  let r0 := tFiles.getRange t0
  let t1 := c.tables1 ++ tFiles.getOverlaps vt1 r0.1 r0.2 true
  let ra := tFiles.getRange (t0 ++ t1)
  let grown :=
    if 0 < t1.length then
      let exp0 := tFiles.getOverlaps vt0 ra.1 ra.2 (level != 0)
      if t0.length < exp0.length ∧ tFiles.size t1 + tFiles.size exp0 < kExpCompactionMaxBytes then
        let rx := tFiles.getRange exp0
        let exp1 := tFiles.getOverlaps vt1 rx.1 rx.2 true
        if exp1.length = t1.length then
          let ra2 := tFiles.getRange (exp0 ++ exp1)
          (exp0, exp1, rx.1, rx.2, ra2.1, ra2.2)
        else (t0, t1, r0.1, r0.2, ra.1, ra.2)
      else (t0, t1, r0.1, r0.2, ra.1, ra.2)
    else (t0, t1, r0.1, r0.2, ra.1, ra.2)
  let gp :=
    if level + 2 < kNumLevels then
      c.gp ++ tFiles.getOverlaps (v.tables.getD (level + 2) []) grown.2.2.2.2.1 grown.2.2.2.2.2 true
    else c.gp
  { c with tables0 := grown.1, tables1 := grown.2.1,
           min := grown.2.2.1, max := grown.2.2.2.1, gp := gp }

/-- The result of session.pickCompaction: the out-of-bounds branch, the
nil nothing-to-do result, or a compaction job. -/
inductive PickResult where
  | oob : PickResult
  | noCompaction : PickResult
  | found : compaction → PickResult
deriving DecidableEq

/-- session.pickCompaction: choose the initial input by score (round
robin through the compaction pointer) or by the seek hint, widen a
level-0 input to all overlapping level-0 files, then expand. The session
is returned alongside the result: the source mutates no session or
version field here, so it comes back unchanged. -/
def session.pickCompaction (s : session) : session × PickResult :=
  match s.pickInput with
  | PickInput.oob => (s, PickResult.oob)
  | PickInput.nothing => (s, PickResult.noCompaction)
  | PickInput.input level t0 =>
    let v := s.stVersion
    let t0 :=
      if level = 0 then
        let r := tFiles.getRange t0
        tFiles.getOverlaps (v.tables.getD 0 []) r.1 r.2 false
      else t0
    let c : compaction :=
      { version := v, level := level, tables0 := t0, tables1 := [],
        gp := [], gpidx := 0, seenKey := false, overlappedBytes := 0,
        min := 0, max := 0 }
    (s, PickResult.found c.expand)

/-- compaction.trivial: a single level-L input, no parent inputs, and
grandparent overlap at or below the fixed ceiling. -/
def compaction.trivial (c : compaction) : Bool :=
  c.tables0.length == 1 && c.tables1.length == 0 &&
    decide (tFiles.size c.gp ≤ kMaxGrandParentOverlapBytes)

/-- The grandparent-cursor loop of shouldStopBefore on the remaining
grandparent files: returns how many files the cursor advances past
(those whose max key is strictly below the queried key) and the bytes
accumulated for them (counted only when the seen-key flag was set on
entry). -/
def sSBAdvance (key : Nat) (seenKey : Bool) : List tFile → Nat × Nat
  | [] => (0, 0)
  | g :: gs =>
    if key ≤ g.max then (0, 0)
    else
      let r := sSBAdvance key seenKey gs
      (r.1 + 1, (if seenKey then g.size else 0) + r.2)

/-- compaction.shouldStopBefore: advance the grandparent cursor past
files ending strictly before the key, accumulating their sizes once a
key has been seen; when the accumulated overlap exceeds the ceiling,
reset it to zero and signal an output cut. -/
def compaction.shouldStopBefore (c : compaction) (key : Nat) : compaction × Bool :=
  let a := sSBAdvance key c.seenKey (c.gp.drop c.gpidx)
  let gpidx := c.gpidx + a.1
  let ob := c.overlappedBytes + a.2
  if kMaxGrandParentOverlapBytes < ob then
    ({ c with gpidx := gpidx, seenKey := true, overlappedBytes := 0 }, true)
  else
    ({ c with gpidx := gpidx, seenKey := true, overlappedBytes := ob }, false)

/-- The payload of one successfully framed manifest record, before it is
merged into the running cumulative record: optional scalar fields plus
the repeated entries (the wire encoding reports which fields are
present). -/
structure RecDelta where
  comparer : Option String := none
  nextNum : Option Nat := none
  journalNum : Option Nat := none
  seq : Option Nat := none
  compactionPointers : List (Nat × Nat) := []
  addedTables : List (Nat × tFile) := []
  deletedTables : List (Nat × Nat) := []
deriving DecidableEq

/-- One framed journal entry as seen by the replay loop: a record
payload that decoded successfully, or a decode failure with its
message. -/
inductive JEntry where
  | bad : String → JEntry
  | good : RecDelta → JEntry
deriving DecidableEq

/-- Modelled from the spec: sessionRecord.decode (defined outside this
file) merges one record's fields into the running record, marking which
scalar fields have been supplied (later values win) and appending the
repeated entries. -/
def mergeRecord (rc : sessionRecord) (d : RecDelta) : sessionRecord :=
  { hasComparer := rc.hasComparer || d.comparer.isSome
    comparer := d.comparer.getD rc.comparer
    hasNextNum := rc.hasNextNum || d.nextNum.isSome
    nextNum := d.nextNum.getD rc.nextNum
    hasJournalNum := rc.hasJournalNum || d.journalNum.isSome
    journalNum := d.journalNum.getD rc.journalNum
    hasSeq := rc.hasSeq || d.seq.isSome
    seq := d.seq.getD rc.seq
    compactionPointers := rc.compactionPointers ++ d.compactionPointers
    addedTables := rc.addedTables ++ d.addedTables
    deletedTables := rc.deletedTables ++ d.deletedTables }

/-- The manifest replay loop of session.recover over the decoded journal
entries (a frame that fails record decoding is an error entry): each
good record first writes its compaction pointers into the session's
pointer array, then is folded into the version staging; a bad record
aborts with a manifest error under strict validation and is skipped
otherwise; the repeated fields of the running record are reset after
every iteration. Returns the pointers, the staging, the cumulative
record, and the error if any. -/
def recoverLoop (strict : Bool) (cptrs : List (Option Nat))
    (staging : List (List tFile)) (rc : sessionRecord) :
    List JEntry →
      List (Option Nat) × List (List tFile) × sessionRecord × Option DBError
  | [] => (cptrs, staging, rc, none)
  | JEntry.bad msg :: rest =>
    if strict then (cptrs, staging, rc, some (DBError.manifestErr msg))
    else recoverLoop strict cptrs staging (resetLists rc) rest
  | JEntry.good d :: rest =>
    let rc2 := mergeRecord rc d
    let cptrs2 := applyCPtrs cptrs rc2.compactionPointers
    let staging2 := tablesApply staging rc2
    recoverLoop strict cptrs2 staging2 (resetLists rc2) rest

/-- Modelled from the spec: recordCommited (defined outside this file)
folds the fully-applied record's counters and compaction pointers into
the session baseline. -/
def session.recordCommited (s : session) (rc : sessionRecord) : session :=
  let s1 := if rc.hasJournalNum then { s with stJournalNum := rc.journalNum } else s
  let s2 := if rc.hasSeq then { s1 with stSeq := rc.seq } else s1
  { s2 with stCPtrs := applyCPtrs s2.stCPtrs rc.compactionPointers }

/-- The storage and journal environment a recovery runs against: the
outcome of locating the manifest, the outcome of opening it, the strict
flag, the decoded journal entries, the journal's terminal status after
those entries (none is a clean end of stream), and how many
engine-owned files storage enumeration reports. -/
structure RecoverEnv where
  getManifestErr : Option DBError
  openErr : Option DBError
  strict : Bool
  entries : List JEntry
  termErr : Option DBError
  otherFiles : Nat
deriving DecidableEq

/-- The body of session.recover before the deferred not-exist wrapping:
locate and open the manifest, replay the journal (compaction pointers
are written into the session as the loop goes), then validate that the
cumulative record supplied the comparer name (matching the active
comparer), next file number, journal number and sequence; only on full
success install the staged version, advance the file number and record
the baseline. -/
def session.recoverBody (s : session) (env : RecoverEnv) : session × Option DBError :=
  match env.getManifestErr with
  | some e => (s, some e)
  | none =>
    match env.openErr with
    | some e => (s, some e)
    | none =>
      let out := recoverLoop env.strict s.stCPtrs s.stVersion.tables {} env.entries
      let s1 := { s with stCPtrs := out.1 }
      match out.2.2.2 with
      | some e => (s1, some e)
      | none =>
        match env.termErr with
        | some e => (s1, some e)
        | none =>
          let rc := out.2.2.1
          if rc.hasComparer = false then
            (s1, some (DBError.manifestErr "leveldb: manifest missing comparer name"))
          else if rc.comparer ≠ s.cmpName then
            (s1, some (DBError.manifestErr "leveldb: comparer mismatch"))
          else if rc.hasNextNum = false then
            (s1, some (DBError.manifestErr "leveldb: manifest missing next file number"))
          else if rc.hasJournalNum = false then
            (s1, some (DBError.manifestErr "leveldb: manifest missing journal file number"))
          else if rc.hasSeq = false then
            (s1, some (DBError.manifestErr "leveldb: manifest missing seq number"))
          else
            let s2 := { s1 with stVersion := version.finish out.2.1, stFileNum := rc.nextNum }
            (s2.recordCommited rc, none)

/-- session.recover: the recovery body plus the deferred handler that
turns a not-exist result into a fatal manifest-missing error whenever
storage still holds other engine-owned files. -/
def session.recover (s : session) (env : RecoverEnv) : session × Option DBError :=
  let out := s.recoverBody env
  match out.2 with
  | some DBError.notExist =>
    if 0 < env.otherFiles then
      (out.1, some (DBError.manifestErr "leveldb: manifest file missing"))
    else (out.1, some DBError.notExist)
  | _ => out

/-- The initial-file selection rule as the spec states it: the first
file in level order whose max key strictly exceeds the stored compaction
pointer; any first file when the pointer is unset; wrap around to the
first file of the level when no file qualifies. -/
def specChoice (cp : Option Nat) (tt : List tFile) : Option tFile :=
  match cp with
  | none => tt.head?
  | some k =>
    match tt.find? (fun t => decide (k < t.max)) with
    | some t => some t
    | none => tt.head?

/-- The parent input set computed by the first phase of expand: the
files of level L+1 overlapping the range of the level-L inputs, appended
to the job's given parent set. -/
def expandT1 (c : compaction) : List tFile :=
  c.tables1 ++ tFiles.getOverlaps (c.version.tables.getD (c.level + 1) [])
    (tFiles.getRange c.tables0).1 (tFiles.getRange c.tables0).2 true

/-- The widened level-L candidate set of expand: the files of level L
overlapping the combined range of the level-L inputs and the parent
set. -/
def expandExp0 (c : compaction) : List tFile :=
  let ra := tFiles.getRange (c.tables0 ++ expandT1 c)
  tFiles.getOverlaps (c.version.tables.getD c.level []) ra.1 ra.2 (c.level != 0)

/-- The parent set recomputed by expand over the widened candidate's key
range. -/
def expandExp1 (c : compaction) : List tFile :=
  let rx := tFiles.getRange (expandExp0 c)
  tFiles.getOverlaps (c.version.tables.getD (c.level + 1) []) rx.1 rx.2 true

/-- The exact condition under which expand adopts the widened level-L
set: a non-empty parent set, strictly more candidate files, combined
size strictly below the expansion ceiling, and an unchanged parent file
count. -/
def expandGrow (c : compaction) : Prop :=
  0 < (expandT1 c).length ∧ c.tables0.length < (expandExp0 c).length ∧
    tFiles.size (expandT1 c) + tFiles.size (expandExp0 c) < kExpCompactionMaxBytes ∧
    (expandExp1 c).length = (expandT1 c).length

instance (c : compaction) : Decidable (expandGrow c) := by
  unfold expandGrow
  infer_instance

/-! Concrete fixtures used by the witness and counterexample theorems. -/

/-- A small file covering keys 0 to 3. -/
def fA : tFile := { fnum := 1, min := 0, max := 3, size := 100 }

/-- A small file covering keys 4 to 7. -/
def fB : tFile := { fnum := 2, min := 4, max := 7, size := 100 }

/-- A small file covering keys 8 to 9. -/
def fC : tFile := { fnum := 3, min := 8, max := 9, size := 100 }

/-- A grandparent file whose size equals the grandparent overlap ceiling
exactly. -/
def fCeil : tFile := { fnum := 4, min := 0, max := 9, size := 20971520 }

/-- A version whose level 1 holds three files, with top score 1 at
level 1 and no seek hint. -/
def vScore : version :=
  { tables := [[], [fA, fB, fC], [], [], [], [], []],
    cScore := 1, cLevel := 1, cSeek := none }

/-- A session over vScore whose level-1 compaction pointer sits at key
5, inside the range of the second file. -/
def sScore : session :=
  { stFileNum := 10, stJournalNum := 1, stSeq := 0,
    stCPtrs := [none, some 5, none, none, none, none, none],
    stVersion := vScore, hasManifest := true,
    cmpName := "leveldb.BytewiseComparator" }

/-- The seek hint used by the hint fixtures: compact fA at level 1. -/
def tsHint : tSet := { level := 1, table := fA }

/-- A version whose top score is below 1 and whose seek hint slot is
set. -/
def vHint : version :=
  { tables := [[], [fA, fB, fC], [], [], [], [], []],
    cScore := 0, cLevel := 0, cSeek := some tsHint }

/-- A session over vHint. -/
def sHint : session :=
  { stFileNum := 10, stJournalNum := 1, stSeq := 0,
    stCPtrs := [none, none, none, none, none, none, none],
    stVersion := vHint, hasManifest := true,
    cmpName := "leveldb.BytewiseComparator" }

/-- A version whose top score is 1 but whose candidate level holds no
file at all, violating the planner precondition. -/
def vEmpty : version :=
  { tables := [[], [], [], [], [], [], []],
    cScore := 1, cLevel := 2, cSeek := none }

/-- A session over vEmpty. -/
def sEmpty : session :=
  { stFileNum := 10, stJournalNum := 1, stSeq := 0,
    stCPtrs := [none, none, none, none, none, none, none],
    stVersion := vEmpty, hasManifest := true,
    cmpName := "leveldb.BytewiseComparator" }

/-- A compaction job with one level-L input, no parent inputs, and
grandparent overlap exactly at the ceiling. -/
def cAtCeiling : compaction :=
  { version := vScore, level := 1, tables0 := [fA], tables1 := [],
    gp := [fCeil], gpidx := 0, seenKey := false, overlappedBytes := 0,
    min := 0, max := 3 }

/-- A recovery environment whose manifest lookup reports not-exist while
storage still holds one other engine-owned file. -/
def envMissing : RecoverEnv :=
  { getManifestErr := some DBError.notExist, openErr := none,
    strict := true, entries := [], termErr := none, otherFiles := 1 }

/-- A recovery environment whose manifest lookup reports not-exist with
an otherwise empty storage. -/
def envFresh : RecoverEnv :=
  { getManifestErr := some DBError.notExist, openErr := none,
    strict := true, entries := [], termErr := none, otherFiles := 0 }

/-- A recovery environment whose journal holds one good record carrying
only a compaction pointer for level 1, so that replay succeeds but the
end-of-replay validation fails on the missing comparer name. -/
def envPtrOnly : RecoverEnv :=
  { getManifestErr := none, openErr := none, strict := true,
    entries := [JEntry.good { compactionPointers := [(1, 42)] }],
    termErr := none, otherFiles := 0 }

/-! Helper lemmas. -/

theorem size_foldl (l : List tFile) (a : Nat) :
    l.foldl (fun a t => a + t.size) a = a + tFiles.size l := by
  induction l generalizing a with
  | nil => simp [tFiles.size]
  | cons g gs ih =>
    simp only [List.foldl, tFiles.size]
    rw [ih, ih (0 + g.size)]
    omega

theorem size_cons (g : tFile) (gs : List tFile) :
    tFiles.size (g :: gs) = g.size + tFiles.size gs := by
  show gs.foldl (fun a t => a + t.size) (0 + g.size) = g.size + tFiles.size gs
  rw [size_foldl]
  omega

theorem pickT0Loop_eq_find (cp : Option Nat) (tt : List tFile) :
    pickT0Loop cp tt =
      (match tt.find? (fun t => cpBelow cp t.max) with
       | some t => [t]
       | none => []) := by
  induction tt with
  | nil => rfl
  | cons t ts ih =>
    by_cases h : cpBelow cp t.max = true
    · simp [pickT0Loop, h, List.find?_cons_of_pos]
    · simp only [Bool.not_eq_true] at h
      simp [pickT0Loop, h, List.find?_cons_of_neg]
      exact ih

theorem specChoice_eq_none_iff (cp : Option Nat) (tt : List tFile) :
    specChoice cp tt = none ↔ tt = [] := by
  cases cp with
  | none => simp [specChoice, List.head?_eq_none_iff]
  | some k =>
    simp only [specChoice]
    cases hf : tt.find? (fun t => decide (k < t.max)) with
    | some t =>
      simp only [reduceCtorEq, false_iff]
      intro h
      rw [h] at hf
      simp at hf
    | none => simp [List.head?_eq_none_iff]

theorem pickInput_score (s : session) (tt : List tFile)
    (hscore : (1 : ℚ) ≤ s.stVersion.cScore)
    (htt : s.stVersion.tables.get? s.stVersion.cLevel = some tt) :
    s.pickInput =
      (match specChoice (s.stCPtrs.getD s.stVersion.cLevel none) tt with
       | some t => PickInput.input s.stVersion.cLevel [t]
       | none => PickInput.oob) := by
  simp only [session.pickInput, if_pos hscore, htt]
  rw [pickT0Loop_eq_find]
  cases hcp : s.stCPtrs.getD s.stVersion.cLevel none with
  | none =>
    cases tt with
    | nil => simp [specChoice, cpBelow]
    | cons t ts => simp [specChoice, cpBelow, List.find?_cons_of_pos]
  | some k =>
    simp only [specChoice, cpBelow]
    cases hf : tt.find? (fun t => decide (k < t.max)) with
    | some t => simp
    | none =>
      simp only [List.isEmpty_nil, if_pos]
      cases tt with
      | nil => simp
      | cons u us => simp

theorem pickCompaction_fst (s : session) : (s.pickCompaction).1 = s := by
  simp only [session.pickCompaction]
  cases s.pickInput <;> rfl

/-- C1: session.commit publishes the candidate version spawned from the
current version plus the record exactly when the durable manifest append
(or initial manifest creation) succeeds; on an append error the current
version pointer is left exactly as it was and the error is returned to
the caller. -/
theorem commit_publishes_iff_append_succeeds (s : session) (rc : sessionRecord)
    (appendErr : Option DBError) :
    ((s.commit rc appendErr).2 = appendErr)
  ∧ ((s.commit rc appendErr).1.stVersion =
      match appendErr with
      | none => s.stVersion.spawn rc
      | some _ => s.stVersion) := by
  cases appendErr <;> cases h : s.hasManifest <;>
    simp [session.commit, session.newManifest, session.flushManifest, h]

/-- C3 counterexample: on a version with top score below 1 and the seek
hint set, pickCompaction does not clear the hint slot — after the pick
the version's hint is still present, and a second pick on the returned
session selects the very same hint again, so the hint is not consumed at
most once. -/
theorem seek_hint_not_cleared_cex :
    (sHint.pickCompaction).1.stVersion.cSeek = some tsHint
  ∧ (sHint.pickCompaction).1.pickInput = PickInput.input tsHint.level [tsHint.table] := by
  decide

/-- C3 amended: whenever pickCompaction runs on a version whose top
score is below 1 and whose seek hint slot is non-empty, it uses the
hint's (file, level) as the sole initial input, but it does not clear
the hint slot: the session (and so the version's hint) is returned
unchanged, and the same hint can be consumed again by later picks on the
same version. -/
theorem seek_hint_sole_input_not_cleared (s : session) (ts : tSet)
    (hscore : ¬ (1 : ℚ) ≤ s.stVersion.cScore)
    (hseek : s.stVersion.cSeek = some ts) :
    s.pickInput = PickInput.input ts.level [ts.table]
  ∧ (s.pickCompaction).1 = s := by
  refine ⟨?_, pickCompaction_fst s⟩
  simp only [session.pickInput, if_neg hscore, hseek]

/-- Witness for the amended C3 theorem at the concrete hint fixture. -/
theorem seek_hint_sole_input_not_cleared_witness :
    sHint.pickInput = PickInput.input tsHint.level [tsHint.table]
  ∧ (sHint.pickCompaction).1 = sHint :=
  seek_hint_sole_input_not_cleared sHint tsHint (by decide) rfl

/-- C7 counterexample: a job with exactly one level-L input file, zero
parent files, and grandparent overlap exactly equal to the ceiling (so
not strictly below it) still reports trivial() = true, refuting the
claimed strict-below reading. -/
theorem trivial_at_ceiling_cex :
    cAtCeiling.trivial = true
  ∧ cAtCeiling.tables0.length = 1
  ∧ cAtCeiling.tables1.length = 0
  ∧ ¬ (tFiles.size cAtCeiling.gp < kMaxGrandParentOverlapBytes) := by
  decide

/-- C7 amended: trivial() returns true if and only if the job has
exactly one level-L input file, zero level-L+1 input files, and total
grandparent overlap at or below (not strictly below) the fixed byte
ceiling; changing any one of those three conditions makes it false. -/
theorem trivial_move_rule (c : compaction) :
    c.trivial = true ↔
      (c.tables0.length = 1 ∧ c.tables1.length = 0 ∧
       tFiles.size c.gp ≤ kMaxGrandParentOverlapBytes) := by
  simp [compaction.trivial, and_assoc]

/-- C8: whenever recover() finds no manifest file (the lookup reports
not-exist), it returns the fatal manifest-missing error if storage still
holds any other engine-owned file, and propagates the plain not-exist
result only when storage holds none. -/
theorem recover_manifest_missing (s : session) (env : RecoverEnv)
    (h : env.getManifestErr = some DBError.notExist) :
    (s.recover env).2 =
      some (if 0 < env.otherFiles then DBError.manifestErr "leveldb: manifest file missing"
            else DBError.notExist) := by
  simp only [session.recover, session.recoverBody, h]
  by_cases ho : 0 < env.otherFiles <;> simp [ho]

/-- Witness for C8 at a concrete environment with a missing manifest and
one remaining engine-owned file: the fatal manifest error is returned,
and at the same session with an empty storage the plain not-exist result
is propagated. -/
theorem recover_manifest_missing_witness :
    (sScore.recover envMissing).2 = some (DBError.manifestErr "leveldb: manifest file missing")
  ∧ (sScore.recover envFresh).2 = some DBError.notExist :=
  ⟨(recover_manifest_missing sScore envMissing rfl).trans (by decide),
   (recover_manifest_missing sScore envFresh rfl).trans (by decide)⟩

theorem pickInput_score_ne_nothing (s : session)
    (hscore : (1 : ℚ) ≤ s.stVersion.cScore) :
    s.pickInput ≠ PickInput.nothing := by
  simp only [session.pickInput, if_pos hscore]
  cases s.stVersion.tables.get? s.stVersion.cLevel with
  | none => simp
  | some tt =>
    simp only
    split
    · cases tt.head? <;> simp
    · simp

/-- C2: on a version whose top compaction score is at least 1 and whose
candidate level holds a non-empty file list, pickCompaction selects as
its initial input exactly the file named by the spec's rule: the first
file in level order whose max key compares strictly greater than the
level's stored compaction pointer (any first file when the pointer is
unset), and the first file of the level when no file's max key exceeds
the pointer (wrap-around). -/
theorem pickCompaction_pointer_selection (s : session) (tt : List tFile)
    (hscore : (1 : ℚ) ≤ s.stVersion.cScore)
    (htt : s.stVersion.tables.get? s.stVersion.cLevel = some tt)
    (hne : tt ≠ []) :
    ∃ t, specChoice (s.stCPtrs.getD s.stVersion.cLevel none) tt = some t ∧
      s.pickInput = PickInput.input s.stVersion.cLevel [t] := by
  have h := pickInput_score s tt hscore htt
  cases hsc : specChoice (s.stCPtrs.getD s.stVersion.cLevel none) tt with
  | none => exact absurd ((specChoice_eq_none_iff _ _).mp hsc) hne
  | some t =>
    rw [hsc] at h
    exact ⟨t, rfl, h⟩

/-- Witness for C2: with the level-1 pointer at key 5 over files with
max keys 3, 7 and 9, the planner selects the file with max key 7. -/
theorem pickCompaction_pointer_selection_witness :
    (∃ t, specChoice (sScore.stCPtrs.getD sScore.stVersion.cLevel none) [fA, fB, fC] = some t ∧
       sScore.pickInput = PickInput.input sScore.stVersion.cLevel [t])
  ∧ sScore.pickInput = PickInput.input 1 [fB] :=
  ⟨pickCompaction_pointer_selection sScore [fA, fB, fC] (by decide) rfl (by decide),
   by decide⟩

/-- C4: for every version whose top compaction score is at least 1,
pickCompaction never returns the nil nothing-to-do result, and whenever
the candidate level also holds at least one file (the precondition
checked separately by the out-of-bounds analysis) it returns a
compaction object. -/
theorem pickCompaction_liveness (s : session)
    (hscore : (1 : ℚ) ≤ s.stVersion.cScore) :
    (s.pickCompaction).2 ≠ PickResult.noCompaction
  ∧ (∀ tt, s.stVersion.tables.get? s.stVersion.cLevel = some tt → tt ≠ [] →
      ∃ c, (s.pickCompaction).2 = PickResult.found c) := by
  constructor
  · cases h : s.pickInput with
    | oob => simp [session.pickCompaction, h]
    | nothing => exact absurd h (pickInput_score_ne_nothing s hscore)
    | input lvl t0 => simp [session.pickCompaction, h]
  · intro tt htt hne
    have h := pickInput_score s tt hscore htt
    cases hsc : specChoice (s.stCPtrs.getD s.stVersion.cLevel none) tt with
    | none => exact absurd ((specChoice_eq_none_iff _ _).mp hsc) hne
    | some t =>
      rw [hsc] at h
      simp only [session.pickCompaction, h]
      exact ⟨_, rfl⟩

/-- Witness for C4 at the concrete score fixture: the pick is not the
nothing-to-do result and produces a compaction object. -/
theorem pickCompaction_liveness_witness :
    (sScore.pickCompaction).2 ≠ PickResult.noCompaction
  ∧ ∃ c, (sScore.pickCompaction).2 = PickResult.found c :=
  ⟨(pickCompaction_liveness sScore (by decide)).1,
   (pickCompaction_liveness sScore (by decide)).2 [fA, fB, fC] rfl (by decide)⟩

/-- C9: under a top compaction score of at least 1, pickCompaction
reaches its out-of-bounds branch (the unguarded indexing of the first
file of the candidate level) exactly when the candidate level's file
list is empty: freedom from out-of-bounds access needs the non-empty
precondition, and a version violating it makes the total embedding's
error branch reachable. -/
theorem pickCompaction_empty_level_oob (s : session) (tt : List tFile)
    (hscore : (1 : ℚ) ≤ s.stVersion.cScore)
    (htt : s.stVersion.tables.get? s.stVersion.cLevel = some tt) :
    (s.pickCompaction).2 = PickResult.oob ↔ tt = [] := by
  have h := pickInput_score s tt hscore htt
  cases hsc : specChoice (s.stCPtrs.getD s.stVersion.cLevel none) tt with
  | none =>
    rw [hsc] at h
    simp [session.pickCompaction, h, (specChoice_eq_none_iff _ _).mp hsc]
  | some t =>
    rw [hsc] at h
    have hne : tt ≠ [] := by
      intro he
      rw [(specChoice_eq_none_iff _ _).mpr he] at hsc
      exact Option.noConfusion hsc
    simp [session.pickCompaction, h, hne]

/-- Witness for C9: a version with score 1 whose candidate level 2 holds
no file drives pickCompaction into the out-of-bounds branch. -/
theorem pickCompaction_empty_level_oob_witness :
    (sEmpty.pickCompaction).2 = PickResult.oob :=
  (pickCompaction_empty_level_oob sEmpty [] (by decide) rfl).mpr rfl

/-- C5: expand() replaces the level-L input set by the wider set exp0
exactly when the computed parent set is non-empty, exp0 holds strictly
more files than the original level-L set, the byte size of the parent
set plus exp0 is strictly below the expansion ceiling, and the parent
set recomputed over exp0's range has exactly as many files as before;
in every other case the level-L set is kept as given and the parent set
is the one computed in the first phase — a single growth attempt, never
iterated. -/
theorem expand_single_growth_rule (c : compaction) :
    (c.expand.tables0, c.expand.tables1) =
      if expandGrow c then (expandExp0 c, expandExp1 c)
      else (c.tables0, expandT1 c) := by
  simp only [compaction.expand]
  split
  · split
    · split
      · rename_i h1 h23 h4
        rw [if_pos (show expandGrow c from ⟨h1, h23.1, h23.2, h4⟩)]
        rfl
      · rename_i h4
        rw [if_neg (show ¬ expandGrow c from fun h => h4 h.2.2.2)]
        rfl
    · rename_i h23
      rw [if_neg (show ¬ expandGrow c from fun h => h23 ⟨h.2.1, h.2.2.1⟩)]
      rfl
  · rename_i h1
    rw [if_neg (show ¬ expandGrow c from fun h => h1 h.1)]
    rfl

theorem sSBAdvance_spec (key : Nat) (sk : Bool) (l : List tFile) :
    sSBAdvance key sk l =
      ((l.takeWhile (fun g => decide (g.max < key))).length,
       if sk then tFiles.size (l.takeWhile (fun g => decide (g.max < key))) else 0) := by
  induction l with
  | nil => cases sk <;> simp [sSBAdvance, tFiles.size]
  | cons g gs ih =>
    by_cases h : key ≤ g.max
    · have hd : (decide (g.max < key)) = false := by
        simp only [decide_eq_false_iff_not, not_lt]
        exact h
      simp only [sSBAdvance, if_pos h, List.takeWhile_cons, hd, Bool.false_eq_true,
        if_false, List.length_nil]
      cases sk <;> simp [tFiles.size]
    · have hlt : g.max < key := by omega
      have hd : (decide (g.max < key)) = true := by simpa using hlt
      simp only [sSBAdvance, if_neg h, List.takeWhile_cons, hd, if_true, ih,
        List.length_cons, size_cons]
      cases sk <;> simp

/-- C6: in shouldStopBefore, a grandparent file's size is counted
exactly when its max key is strictly below the queried key (the cursor
advances past the strict prefix of such files) and a key had already
been seen before the call; the call returns true exactly when the
accumulated overlap then exceeds the fixed ceiling, resetting the
counter to zero at that crossing, and otherwise returns false keeping
the accumulated counter — so over a sequence of strictly increasing
keys, true is reported exactly once per crossing. -/
theorem shouldStopBefore_overlap_budget (c : compaction) (key : Nat) :
    ((c.shouldStopBefore key).2 =
        decide (kMaxGrandParentOverlapBytes <
          c.overlappedBytes + (if c.seenKey then
            tFiles.size ((c.gp.drop c.gpidx).takeWhile (fun g => decide (g.max < key)))
          else 0)))
  ∧ ((c.shouldStopBefore key).1.overlappedBytes =
        (if kMaxGrandParentOverlapBytes <
            c.overlappedBytes + (if c.seenKey then
              tFiles.size ((c.gp.drop c.gpidx).takeWhile (fun g => decide (g.max < key)))
            else 0)
         then 0
         else c.overlappedBytes + (if c.seenKey then
             tFiles.size ((c.gp.drop c.gpidx).takeWhile (fun g => decide (g.max < key)))
           else 0)))
  ∧ ((c.shouldStopBefore key).1.gpidx =
        c.gpidx + ((c.gp.drop c.gpidx).takeWhile (fun g => decide (g.max < key))).length)
  ∧ ((c.shouldStopBefore key).1.seenKey = true) := by
  have ha := sSBAdvance_spec key c.seenKey (c.gp.drop c.gpidx)
  by_cases hb : kMaxGrandParentOverlapBytes <
      c.overlappedBytes + (if c.seenKey then
        tFiles.size ((c.gp.drop c.gpidx).takeWhile (fun g => decide (g.max < key)))
      else 0)
  · simp [compaction.shouldStopBefore, ha, hb]
  · simp [compaction.shouldStopBefore, ha, hb]

theorem recoverLoop_rc_cptrs (strict : Bool) (entries : List JEntry) :
    ∀ (cptrs : List (Option Nat)) (staging : List (List tFile)) (rc : sessionRecord),
      rc.compactionPointers = [] →
      (recoverLoop strict cptrs staging rc entries).2.2.1.compactionPointers = [] := by
  induction entries with
  | nil =>
    intro cptrs staging rc h
    exact h
  | cons e rest ih =>
    intro cptrs staging rc h
    cases e with
    | bad msg =>
      cases strict with
      | true => exact h
      | false => exact ih _ _ _ rfl
    | good d => exact ih _ _ _ rfl

theorem recordCommited_stCPtrs (s : session) (rc : sessionRecord)
    (h : rc.compactionPointers = []) :
    (s.recordCommited rc).stCPtrs = s.stCPtrs := by
  by_cases hj : rc.hasJournalNum = true <;> by_cases hq : rc.hasSeq = true <;>
    simp [session.recordCommited, h, hj, hq, applyCPtrs]

theorem recover_fst_eq_body (s : session) (env : RecoverEnv) :
    (s.recover env).1 = (s.recoverBody env).1 := by
  simp only [session.recover]
  split
  · split <;> rfl
  · rfl

theorem recover_err_iff_body (s : session) (env : RecoverEnv) :
    (s.recover env).2 = none ↔ (s.recoverBody env).2 = none := by
  simp only [session.recover]
  split
  · rename_i h
    rw [h]
    split <;> simp
  · rfl

theorem recoverBody_err_frame (s : session) (env : RecoverEnv) :
    (s.recoverBody env).2 ≠ none →
      (s.recoverBody env).1.stVersion = s.stVersion ∧
      (s.recoverBody env).1.stFileNum = s.stFileNum := by
  unfold session.recoverBody
  dsimp only
  split
  · intro _; exact ⟨rfl, rfl⟩
  · split
    · intro _; exact ⟨rfl, rfl⟩
    · split
      · intro _; exact ⟨rfl, rfl⟩
      · split
        · intro _; exact ⟨rfl, rfl⟩
        · split
          · intro _; exact ⟨rfl, rfl⟩
          · split
            · intro _; exact ⟨rfl, rfl⟩
            · split
              · intro _; exact ⟨rfl, rfl⟩
              · split
                · intro _; exact ⟨rfl, rfl⟩
                · split
                  · intro _; exact ⟨rfl, rfl⟩
                  · intro h; exact absurd rfl h

theorem recoverBody_cptrs (s : session) (env : RecoverEnv)
    (h1 : env.getManifestErr = none) (h2 : env.openErr = none) :
    (s.recoverBody env).1.stCPtrs =
      (recoverLoop env.strict s.stCPtrs s.stVersion.tables {} env.entries).1 := by
  have hrc : (recoverLoop env.strict s.stCPtrs s.stVersion.tables
      {} env.entries).2.2.1.compactionPointers = [] :=
    recoverLoop_rc_cptrs env.strict env.entries _ _ _ rfl
  unfold session.recoverBody
  dsimp only
  rw [h1, h2]
  dsimp only
  split
  · rfl
  · split
    · rfl
    · split
      · rfl
      · split
        · rfl
        · split
          · rfl
          · split
            · rfl
            · split
              · rfl
              · exact recordCommited_stCPtrs _ _ hrc

/-- C10: recover() is not atomic on session state: compaction pointers
from every successfully decoded record are written into the session
during replay, so when recover() then fails (decode error under strict
validation, journal error, missing required field, or comparer mismatch)
those pointer updates remain applied — while the current-version pointer
and the file-number counter are assigned only on the success path and
are unchanged on every failure. -/
theorem recover_failure_frame (s : session) (env : RecoverEnv) :
    ((s.recover env).2 ≠ none →
      (s.recover env).1.stVersion = s.stVersion ∧
      (s.recover env).1.stFileNum = s.stFileNum)
  ∧ (env.getManifestErr = none → env.openErr = none →
      (s.recover env).1.stCPtrs =
        (recoverLoop env.strict s.stCPtrs s.stVersion.tables {} env.entries).1) := by
  rw [recover_fst_eq_body]
  refine ⟨fun h => recoverBody_err_frame s env ?_, fun h1 h2 => recoverBody_cptrs s env h1 h2⟩
  intro hnone
  exact h ((recover_err_iff_body s env).mpr hnone)

/-- Witness for C10: a journal holding one good record that carries only
a compaction pointer and no comparer name makes recovery fail, yet the
pointer update persists in the session while the current version stays
untouched. -/
theorem recover_failure_frame_witness :
    (sScore.recover envPtrOnly).1.stVersion = sScore.stVersion
  ∧ (sScore.recover envPtrOnly).1.stCPtrs =
      (recoverLoop envPtrOnly.strict sScore.stCPtrs sScore.stVersion.tables
        {} envPtrOnly.entries).1
  ∧ (sScore.recover envPtrOnly).1.stCPtrs =
      [none, some 42, none, none, none, none, none] :=
  ⟨((recover_failure_frame sScore envPtrOnly).1 (by decide)).1,
   (recover_failure_frame sScore envPtrOnly).2 rfl rfl,
   by decide⟩

end GoLevelDB
